import Mathlib

/-!
Shallow embedding of the `BookReader` class of this repository
(the full variant with visual and speech reading modes).

Modelling conventions:
* DOM text contents that the class writes (`wordDisplay.textContent`,
  `progressText.textContent`, the play/pause button label) are fields of the
  state, so that render effects are observable.
* `localStorage` is external: `saveToLocalStorage` is modelled by `snapshotOf`
  (the JSON object the code serializes) and `loadFromLocalStorage` takes the
  parsed stored value as an `Option BookData` argument (`none` models both an
  absent key and malformed JSON, which the surrounding try/catch turns into a
  no-op).
* `setInterval` / `speechSynthesis` are external engines: starting a timer is
  recorded in `intervalId`, a spoken utterance is recorded in
  `currentUtterance`, and the asynchronous callbacks the engines fire later
  (`displayNextWord` ticks, `onstart` / `onboundary` / `onend` events) are
  separate transition functions applied to the state.
* JavaScript numbers holding word indices and speeds are modelled as `Int`
  (the code can and does produce negative indices).
-/

namespace BookReader

/-- The character class of the JavaScript regex `\s` (as used by
`text.split(/\s+/)`): ASCII whitespace, NBSP, and the Unicode space
separators, line separators and BOM. -/
def jsSpace (c : Char) : Bool :=
  c = ' ' || c = '\t' || c = '\n' || c = '\r' || c = '\x0b' || c = '\x0c' ||
  c = '\u00A0' || c = '\u1680' || ('\u2000' ≤ c && c ≤ '\u200A') ||
  c = '\u2028' || c = '\u2029' || c = '\u202F' || c = '\u205F' ||
  c = '\u3000' || c = '\uFEFF'

/-- Accumulator worker for the tokenizer: collects the current word
(reversed) in `acc` and emits maximal runs of non-whitespace characters.
`text.split(/\s+/).filter(w => w.length > 0)` returns exactly the maximal
non-whitespace runs of the input, which is what this computes. -/
def tokenizeAux : List Char → List Char → List (List Char)
  | [], acc => if acc.isEmpty then [] else [acc.reverse]
  | c :: cs, acc =>
    if jsSpace c then
      if acc.isEmpty then tokenizeAux cs [] else acc.reverse :: tokenizeAux cs []
    else
      tokenizeAux cs (c :: acc)

/-- `l` split into its maximal runs of non-`jsSpace` characters. -/
def tokenizeChars (l : List Char) : List (List Char) :=
  tokenizeAux l []

/-- `processBookText` / `loadFromLocalStorage` tokenizer:
`text.split(/\s+/).filter(word => word.length > 0)`. -/
def tokenize (text : String) : List String :=
  (tokenizeChars text.data).map String.mk

/-- `Array.prototype.join(' ')`: the elements separated by single spaces. -/
def joinWithSpace : List (List Char) → List Char
  | [] => []
  | [w] => w
  | w :: w2 :: ws => w ++ ' ' :: joinWithSpace (w2 :: ws)

/-- `this.words.join(' ')`. -/
def joinWords (ws : List String) : String :=
  String.mk (joinWithSpace (ws.map String.data))

/-- An element of `this.speechQueue`:
`{ text: chunk.join(' '), startIndex: ..., wordCount: chunk.length }`. -/
structure SpeechChunk where
  text : String
  startIndex : Int
  wordCount : Nat
deriving DecidableEq

/-- The parsed `bookReaderData` JSON object. `Option` fields model members
that may be absent from the stored JSON (the code guards them with JS
truthiness checks). -/
structure BookData where
  text : String
  currentIndex : Option Int
  wpm : Option Int
  readingMode : Option String
deriving DecidableEq

/-- The mutable fields of the `BookReader` instance, together with the DOM
text the class renders into. -/
structure ReaderState where
  words : List String
  currentIndex : Int
  isPlaying : Bool
  intervalId : Option Nat
  wpm : Int
  readingMode : String
  speechQueue : List SpeechChunk
  isSpeechActive : Bool
  currentUtterance : Option SpeechChunk
  display : String
  progress : String
  playBtnLabel : String
deriving DecidableEq

/-- The constructor's field initialisation (DOM text contents start out as
whatever the static HTML held; the claims never depend on those initial
strings, so they are abstracted as empty). -/
def initialState : ReaderState :=
  { words := []
    currentIndex := 0
    isPlaying := false
    intervalId := none
    wpm := 300
    readingMode := "visual"
    speechQueue := []
    isSpeechActive := false
    currentUtterance := none
    display := ""
    progress := ""
    playBtnLabel := "" }

/-- `this.words[i]` assigned to `textContent`: an out-of-bounds or negative
index reads `undefined`, and assigning `undefined` to `textContent` renders
the string `"undefined"`. -/
def wordAt (ws : List String) (i : Int) : String :=
  if 0 ≤ i then ws.getD i.toNat "undefined" else "undefined"

/-- `` `${this.currentIndex + 1} / ${this.words.length}` ``. -/
def progressString (i : Int) (n : Nat) : String :=
  toString (i + 1) ++ " / " ++ toString n

/-- `updateDisplay()`: writes the current word only when
`this.words.length > 0 && this.currentIndex < this.words.length`; otherwise
the previously rendered text is left as it is. -/
def updateDisplay (s : ReaderState) : ReaderState :=
  if 0 < s.words.length ∧ s.currentIndex < (s.words.length : Int) then
    { s with display := wordAt s.words s.currentIndex }
  else s

/-- `updateProgress()`. -/
def updateProgress (s : ReaderState) : ReaderState :=
  { s with progress := progressString s.currentIndex s.words.length }

/-- The `bookData` object `saveToLocalStorage()` serializes. -/
def snapshotOf (s : ReaderState) : BookData :=
  { text := joinWords s.words
    currentIndex := some s.currentIndex
    wpm := some s.wpm
    readingMode := some s.readingMode }

/-- `bookData.currentIndex || 0`: only the absent (or zero) case falls back
to `0`; any other number, negative ones included, is kept. -/
def jsOrZero : Option Int → Int
  | none => 0
  | some v => if v = 0 then 0 else v

/-- `stop()`: flags not playing and clears a pending interval (idempotent). -/
def stop (s : ReaderState) : ReaderState :=
  { s with isPlaying := false, intervalId := none }

/-- `pause()`: stop, relabel the button, deactivate speech, clear the chunk
queue (cancelling the engine's in-flight utterance is external). -/
def pause (s : ReaderState) : ReaderState :=
  let s := stop s
  { s with playBtnLabel := "Play", isSpeechActive := false, speechQueue := [] }

/-- The chunking loop of `speakFromCurrentPosition`:
`for (let i = 0; i < remainingWords.length; i += chunkSize)` pushing
`{ text: chunk.join(' '), startIndex: this.currentIndex + i, wordCount: chunk.length }`
with `chunk = remainingWords.slice(i, i + chunkSize)` and `chunkSize = 200`. -/
def chunkSize : Nat := 200

/-- The queue the chunking loop builds, one chunk per loop iteration
(`k`-th iteration has `i = k * chunkSize`). -/
def buildChunks (remaining : List String) (startAt : Int) : List SpeechChunk :=
  (List.range ((remaining.length + chunkSize - 1) / chunkSize)).map fun k =>
    let chunk := (remaining.drop (k * chunkSize)).take chunkSize
    { text := joinWords chunk
      startIndex := startAt + (k * chunkSize : Nat)
      wordCount := chunk.length }

/-- `this.words.slice(i)` for a JS index `i` that may be negative
(a negative start counts from the end, floored at 0). -/
def sliceFrom (ws : List String) (i : Int) : List String :=
  ws.drop (if 0 ≤ i then i.toNat else ((ws.length : Int) + i).toNat)

/-- `speakNextChunk()`: when inactive or out of chunks, an active session
finishes by parking the cursor on the last word and pausing; otherwise the
next chunk is dequeued and handed to the speech engine. -/
def speakNextChunk (s : ReaderState) : ReaderState :=
  if !s.isSpeechActive || s.speechQueue.isEmpty then
    if s.isSpeechActive then
      let s := { s with currentIndex := (s.words.length : Int) - 1 }
      pause (updateProgress (updateDisplay s))
    else s
  else
    match s.speechQueue with
    | [] => s
    | chunk :: rest =>
      { s with speechQueue := rest, currentUtterance := some chunk }

/-- `speakFromCurrentPosition()`: slice the remaining words, (externally)
cancel ongoing speech, rebuild the queue, activate, and start the first
chunk. -/
def speakFromCurrentPosition (s : ReaderState) : ReaderState :=
  let remaining := sliceFrom s.words s.currentIndex
  let s := { s with
    speechQueue := buildChunks remaining s.currentIndex
    isSpeechActive := true }
  speakNextChunk s

/-- `play()`. -/
def play (s : ReaderState) : ReaderState :=
  let s := if (s.words.length : Int) ≤ s.currentIndex then
    { s with currentIndex := 0 } else s
  let s := { s with isPlaying := true, playBtnLabel := "Pause" }
  if s.readingMode = "speech" then
    speakFromCurrentPosition s
  else
    { s with intervalId := some 1 }

/-- `displayNextWord()`: the periodic visual tick (the every-10th-step
`saveToLocalStorage` call only touches external storage). -/
def displayNextWord (s : ReaderState) : ReaderState :=
  if (s.words.length : Int) ≤ s.currentIndex then
    { pause s with currentIndex := 0 }
  else
    let s := updateDisplay s
    let s := { s with currentIndex := s.currentIndex + 1 }
    updateProgress s

/-- `jumpWords(amount)`. -/
def jumpWords (s : ReaderState) (amount : Int) : ReaderState :=
  let newIndex := max 0 (min ((s.words.length : Int) - 1) (s.currentIndex + amount))
  let s := { s with currentIndex := newIndex }
  updateProgress (updateDisplay s)

/-- `updateSpeed(wpm)` (the argument is the result of `parseInt`; the
speed-value label and slider position are DOM-only). -/
def updateSpeed (s : ReaderState) (wpm : Int) : ReaderState :=
  let s := { s with wpm := wpm }
  if s.isPlaying then play (stop s) else s

/-- `adjustSpeed(change)`. -/
def adjustSpeed (s : ReaderState) (change : Int) : ReaderState :=
  updateSpeed s (max 100 (min 1000 (s.wpm + change)))

/-- `setReadingMode(mode)` (the radio-button update is DOM-only). -/
def setReadingMode (s : ReaderState) (mode : String) : ReaderState :=
  let s := if s.isPlaying then pause s else s
  { s with readingMode := mode }

/-- `toggleMode()`. -/
def toggleMode (s : ReaderState) : ReaderState :=
  setReadingMode s (if s.readingMode = "visual" then "speech" else "visual")

/-- `processBookText(text)`: the document-load path shared by the file
reader and the sample fetch. -/
def processBookText (s : ReaderState) (text : String) : ReaderState :=
  let s := { s with words := tokenize text, currentIndex := 0 }
  updateProgress (updateDisplay s)

/-- `loadFromLocalStorage()` applied to the parsed stored value (`none`
models an absent key or malformed JSON, which the try/catch swallows). -/
def loadFromLocalStorage (s : ReaderState) (saved : Option BookData) : ReaderState :=
  match saved with
  | none => s
  | some bd =>
    let s := { s with words := tokenize bd.text }
    let s := { s with
      currentIndex := min (jsOrZero bd.currentIndex) ((s.words.length : Int) - 1) }
    let s : ReaderState := match bd.wpm with
      | some w => if w ≠ 0 then updateSpeed { s with wpm := w } w else s
      | none => s
    let s : ReaderState := match bd.readingMode with
      | some m => if m ≠ "" then { s with readingMode := m } else s
      | none => s
    if 0 < s.words.length then updateProgress (updateDisplay s) else s

/-- A speech-engine boundary event (`event.name`, `event.charIndex`). -/
structure BoundaryEvent where
  name : String
  charIndex : Nat
deriving DecidableEq

/-- `utterance.onstart` for the chunk currently being spoken. -/
def chunkOnStart (s : ReaderState) (chunk : SpeechChunk) : ReaderState :=
  updateProgress (updateDisplay { s with currentIndex := chunk.startIndex })

/-- The word count `onboundary` computes:
`chunk.text.substring(0, charIndex).trim().split(/\s+/).filter(w => w.length > 0).length`,
i.e. the number of maximal non-whitespace runs in the first `charIndex`
characters (`trim()` cannot change that count). -/
def wordsSpokenAt (text : String) (charIndex : Nat) : Nat :=
  (tokenizeChars (text.data.take charIndex)).length

/-- `utterance.onboundary` for the chunk currently being spoken; the second
component is the updated closure variable `lastWordIndex`. -/
def chunkOnBoundary (s : ReaderState) (chunk : SpeechChunk) (lastWordIndex : Nat)
    (e : BoundaryEvent) : ReaderState × Nat :=
  if e.name = "word" then
    let wordsSpoken := wordsSpokenAt chunk.text e.charIndex
    if wordsSpoken ≠ lastWordIndex then
      let s := { s with currentIndex := chunk.startIndex + wordsSpoken }
      (updateProgress (updateDisplay s), wordsSpoken)
    else (s, lastWordIndex)
  else (s, lastWordIndex)

/-- `utterance.onend` for the chunk that finished. -/
def chunkOnEnd (s : ReaderState) (chunk : SpeechChunk) : ReaderState :=
  let s := { s with currentIndex := chunk.startIndex + chunk.wordCount }
  let s := updateProgress (updateDisplay s)
  speakNextChunk s

/-- `utterance.onerror`. -/
def chunkOnError (s : ReaderState) : ReaderState :=
  pause { s with isSpeechActive := false }

/-- A whole sequence of `onboundary` events within one chunk, threading the
`lastWordIndex` closure variable. -/
def runChunkBoundaries (chunk : SpeechChunk) :
    ReaderState × Nat → List BoundaryEvent → ReaderState × Nat
  | sl, [] => sl
  | (s, l), e :: es => runChunkBoundaries chunk (chunkOnBoundary s chunk l e) es

/-- The position range invariant the spec states for the word cursor. -/
def posInv (s : ReaderState) : Prop :=
  0 ≤ s.currentIndex ∧ s.currentIndex ≤ (s.words.length : Int)

instance (s : ReaderState) : Decidable (posInv s) :=
  inferInstanceAs (Decidable (0 ≤ s.currentIndex ∧ s.currentIndex ≤ (s.words.length : Int)))

/-! ### Frame lemmas: which fields each rendering / playback helper leaves alone -/

@[simp] lemma updateProgress_words (s : ReaderState) : (updateProgress s).words = s.words := rfl

@[simp] lemma updateProgress_currentIndex (s : ReaderState) :
    (updateProgress s).currentIndex = s.currentIndex := rfl

@[simp] lemma updateProgress_isPlaying (s : ReaderState) :
    (updateProgress s).isPlaying = s.isPlaying := rfl

@[simp] lemma updateProgress_intervalId (s : ReaderState) :
    (updateProgress s).intervalId = s.intervalId := rfl

@[simp] lemma updateProgress_wpm (s : ReaderState) : (updateProgress s).wpm = s.wpm := rfl

@[simp] lemma updateProgress_readingMode (s : ReaderState) :
    (updateProgress s).readingMode = s.readingMode := rfl

@[simp] lemma updateProgress_speechQueue (s : ReaderState) :
    (updateProgress s).speechQueue = s.speechQueue := rfl

@[simp] lemma updateProgress_isSpeechActive (s : ReaderState) :
    (updateProgress s).isSpeechActive = s.isSpeechActive := rfl

@[simp] lemma updateProgress_currentUtterance (s : ReaderState) :
    (updateProgress s).currentUtterance = s.currentUtterance := rfl

@[simp] lemma updateProgress_display (s : ReaderState) :
    (updateProgress s).display = s.display := rfl

@[simp] lemma updateProgress_progress (s : ReaderState) :
    (updateProgress s).progress = progressString s.currentIndex s.words.length := rfl

@[simp] lemma updateDisplay_words (s : ReaderState) : (updateDisplay s).words = s.words := by
  unfold updateDisplay; split <;> rfl

@[simp] lemma updateDisplay_currentIndex (s : ReaderState) :
    (updateDisplay s).currentIndex = s.currentIndex := by
  unfold updateDisplay; split <;> rfl

@[simp] lemma updateDisplay_isPlaying (s : ReaderState) :
    (updateDisplay s).isPlaying = s.isPlaying := by
  unfold updateDisplay; split <;> rfl

@[simp] lemma updateDisplay_intervalId (s : ReaderState) :
    (updateDisplay s).intervalId = s.intervalId := by
  unfold updateDisplay; split <;> rfl

@[simp] lemma updateDisplay_wpm (s : ReaderState) : (updateDisplay s).wpm = s.wpm := by
  unfold updateDisplay; split <;> rfl

@[simp] lemma updateDisplay_readingMode (s : ReaderState) :
    (updateDisplay s).readingMode = s.readingMode := by
  unfold updateDisplay; split <;> rfl

@[simp] lemma updateDisplay_speechQueue (s : ReaderState) :
    (updateDisplay s).speechQueue = s.speechQueue := by
  unfold updateDisplay; split <;> rfl

@[simp] lemma updateDisplay_isSpeechActive (s : ReaderState) :
    (updateDisplay s).isSpeechActive = s.isSpeechActive := by
  unfold updateDisplay; split <;> rfl

@[simp] lemma updateDisplay_currentUtterance (s : ReaderState) :
    (updateDisplay s).currentUtterance = s.currentUtterance := by
  unfold updateDisplay; split <;> rfl

@[simp] lemma updateDisplay_progress (s : ReaderState) :
    (updateDisplay s).progress = s.progress := by
  unfold updateDisplay; split <;> rfl

@[simp] lemma stop_words (s : ReaderState) : (stop s).words = s.words := rfl

@[simp] lemma stop_currentIndex (s : ReaderState) : (stop s).currentIndex = s.currentIndex := rfl

@[simp] lemma stop_isPlaying (s : ReaderState) : (stop s).isPlaying = false := rfl

@[simp] lemma stop_intervalId (s : ReaderState) : (stop s).intervalId = none := rfl

@[simp] lemma stop_wpm (s : ReaderState) : (stop s).wpm = s.wpm := rfl

@[simp] lemma stop_readingMode (s : ReaderState) : (stop s).readingMode = s.readingMode := rfl

@[simp] lemma stop_speechQueue (s : ReaderState) : (stop s).speechQueue = s.speechQueue := rfl

@[simp] lemma stop_isSpeechActive (s : ReaderState) :
    (stop s).isSpeechActive = s.isSpeechActive := rfl

@[simp] lemma stop_currentUtterance (s : ReaderState) :
    (stop s).currentUtterance = s.currentUtterance := rfl

@[simp] lemma pause_words (s : ReaderState) : (pause s).words = s.words := rfl

@[simp] lemma pause_currentIndex (s : ReaderState) : (pause s).currentIndex = s.currentIndex := rfl

@[simp] lemma pause_isPlaying (s : ReaderState) : (pause s).isPlaying = false := rfl

@[simp] lemma pause_intervalId (s : ReaderState) : (pause s).intervalId = none := rfl

@[simp] lemma pause_wpm (s : ReaderState) : (pause s).wpm = s.wpm := rfl

@[simp] lemma pause_readingMode (s : ReaderState) : (pause s).readingMode = s.readingMode := rfl

@[simp] lemma pause_speechQueue (s : ReaderState) : (pause s).speechQueue = [] := rfl

@[simp] lemma pause_isSpeechActive (s : ReaderState) : (pause s).isSpeechActive = false := rfl

@[simp] lemma pause_currentUtterance (s : ReaderState) :
    (pause s).currentUtterance = s.currentUtterance := rfl

@[simp] lemma pause_display (s : ReaderState) : (pause s).display = s.display := rfl

@[simp] lemma pause_progress (s : ReaderState) : (pause s).progress = s.progress := rfl

@[simp] lemma speakNextChunk_words (s : ReaderState) :
    (speakNextChunk s).words = s.words := by
  unfold speakNextChunk
  split
  · split <;> simp
  · cases hq : s.speechQueue <;> simp

@[simp] lemma speakNextChunk_wpm (s : ReaderState) :
    (speakNextChunk s).wpm = s.wpm := by
  unfold speakNextChunk
  split
  · split <;> simp
  · cases hq : s.speechQueue <;> simp

@[simp] lemma speakNextChunk_readingMode (s : ReaderState) :
    (speakNextChunk s).readingMode = s.readingMode := by
  unfold speakNextChunk
  split
  · split <;> simp
  · cases hq : s.speechQueue <;> simp

@[simp] lemma speakFromCurrentPosition_words (s : ReaderState) :
    (speakFromCurrentPosition s).words = s.words := by
  unfold speakFromCurrentPosition; simp

@[simp] lemma speakFromCurrentPosition_wpm (s : ReaderState) :
    (speakFromCurrentPosition s).wpm = s.wpm := by
  unfold speakFromCurrentPosition; simp

@[simp] lemma speakFromCurrentPosition_readingMode (s : ReaderState) :
    (speakFromCurrentPosition s).readingMode = s.readingMode := by
  unfold speakFromCurrentPosition; simp

@[simp] lemma play_words (s : ReaderState) : (play s).words = s.words := by
  simp only [play]; split <;> split <;> simp

@[simp] lemma play_wpm (s : ReaderState) : (play s).wpm = s.wpm := by
  simp only [play]; split <;> split <;> simp

@[simp] lemma play_readingMode (s : ReaderState) : (play s).readingMode = s.readingMode := by
  simp only [play]; split <;> split <;> simp

@[simp] lemma updateSpeed_words (s : ReaderState) (w : Int) :
    (updateSpeed s w).words = s.words := by
  simp only [updateSpeed]; split <;> simp

@[simp] lemma updateSpeed_wpm (s : ReaderState) (w : Int) : (updateSpeed s w).wpm = w := by
  simp only [updateSpeed]; split <;> simp

/-- `updateSpeed` from a non-playing state only changes the speed field. -/
lemma updateSpeed_not_playing (s : ReaderState) (w : Int) (h : s.isPlaying = false) :
    updateSpeed s w = { s with wpm := w } := by
  simp only [updateSpeed]
  split
  · next hc => simp [h] at hc
  · rfl

/-! ### Characterisation of `loadFromLocalStorage` on a present snapshot -/

/-- Restore always replaces the document with the re-tokenized stored text. -/
lemma restore_words (s : ReaderState) (bd : BookData) :
    (loadFromLocalStorage s (some bd)).words = tokenize bd.text := by
  obtain ⟨t, ci, w, m⟩ := bd
  cases w <;> cases m <;>
    simp only [loadFromLocalStorage] <;>
    (repeat' split) <;> simp

/-- Restore's stored-index clamp, read off from the code: the final cursor is
`min (stored index defaulted to 0) (restored length - 1)` whenever the reader
is not mid-playback (as in the constructor, restore's only call site). -/
lemma restore_currentIndex (s : ReaderState) (bd : BookData) (h : s.isPlaying = false) :
    (loadFromLocalStorage s (some bd)).currentIndex
      = min (jsOrZero bd.currentIndex) (((tokenize bd.text).length : Int) - 1) := by
  obtain ⟨t, ci, w, m⟩ := bd
  cases w <;> cases m <;>
    simp only [loadFromLocalStorage] <;>
    (repeat' split) <;>
    simp_all [updateSpeed_not_playing]

/-- Restore from a non-playing state never touches the playback machinery. -/
lemma restore_playback (s : ReaderState) (bd : BookData) (h : s.isPlaying = false) :
    (loadFromLocalStorage s (some bd)).isPlaying = s.isPlaying ∧
    (loadFromLocalStorage s (some bd)).intervalId = s.intervalId ∧
    (loadFromLocalStorage s (some bd)).isSpeechActive = s.isSpeechActive ∧
    (loadFromLocalStorage s (some bd)).speechQueue = s.speechQueue ∧
    (loadFromLocalStorage s (some bd)).currentUtterance = s.currentUtterance := by
  obtain ⟨t, ci, w, m⟩ := bd
  cases w <;> cases m <;>
    simp only [loadFromLocalStorage] <;>
    (repeat' split) <;>
    simp_all [updateSpeed_not_playing]

/-! ### Tokenizer theory -/

/-- Every token the tokenizer emits is a nonempty run of non-whitespace
characters (given that the accumulated partial word already is one). -/
lemma tokenizeAux_wf (l : List Char) :
    ∀ acc, (∀ c ∈ acc, jsSpace c = false) →
      ∀ w ∈ tokenizeAux l acc, w ≠ [] ∧ ∀ c ∈ w, jsSpace c = false := by
  induction l with
  | nil =>
    intro acc hacc w hw
    simp only [tokenizeAux] at hw
    split at hw
    · simp at hw
    · next hne =>
      simp only [List.mem_singleton] at hw
      subst hw
      refine ⟨by simpa [List.isEmpty_iff] using hne, ?_⟩
      intro c hc
      exact hacc c (by simpa using hc)
  | cons c cs ih =>
    intro acc hacc w hw
    simp only [tokenizeAux] at hw
    split at hw
    · split at hw
      · exact ih [] (by simp) w hw
      · next hne =>
        rcases List.mem_cons.mp hw with h | h
        · subst h
          refine ⟨by simpa [List.isEmpty_iff] using hne, ?_⟩
          intro d hd
          exact hacc d (by simpa using hd)
        · exact ih [] (by simp) w h
    · next hc =>
      refine ih (c :: acc) ?_ w hw
      intro d hd
      rcases List.mem_cons.mp hd with h | h
      · subst h; simpa using hc
      · exact hacc d h

/-- Consuming a whitespace-free block just moves it into the accumulator. -/
lemma tokenizeAux_append (w : List Char) :
    ∀ (l acc : List Char), (∀ c ∈ w, jsSpace c = false) →
      tokenizeAux (w ++ l) acc = tokenizeAux l (w.reverse ++ acc) := by
  induction w with
  | nil => intro l acc _; simp
  | cons c cs ih =>
    intro l acc hw
    have hc : jsSpace c = false := hw c (by simp)
    have h1 : tokenizeAux ((c :: cs) ++ l) acc = tokenizeAux (cs ++ l) (c :: acc) := by
      simp [tokenizeAux, hc]
    rw [h1, ih l (c :: acc) (fun d hd => hw d (by simp [hd]))]
    simp

/-- Tokenizing a space-joined list of nonempty whitespace-free words gives
the words back. -/
lemma tokenizeChars_joinWithSpace (ws : List (List Char))
    (h : ∀ w ∈ ws, w ≠ [] ∧ ∀ c ∈ w, jsSpace c = false) :
    tokenizeChars (joinWithSpace ws) = ws := by
  induction ws with
  | nil => rfl
  | cons w rest ih =>
    obtain ⟨hne, hw⟩ := h w (by simp)
    cases rest with
    | nil =>
      show tokenizeAux (joinWithSpace [w]) [] = [w]
      have : tokenizeAux (w ++ []) [] = tokenizeAux [] (w.reverse ++ []) :=
        tokenizeAux_append w [] [] hw
      simp only [joinWithSpace, List.append_nil] at this ⊢
      rw [this]
      simp [tokenizeAux, List.isEmpty_iff, hne]
    | cons w2 rest2 =>
      show tokenizeAux (joinWithSpace (w :: w2 :: rest2)) [] = w :: w2 :: rest2
      have hjoin : joinWithSpace (w :: w2 :: rest2)
          = w ++ ' ' :: joinWithSpace (w2 :: rest2) := rfl
      have hsp : jsSpace ' ' = true := rfl
      have hrevne : (w.reverse).isEmpty = false := by
        simp [List.isEmpty_iff, hne]
      have h2 : tokenizeAux (' ' :: joinWithSpace (w2 :: rest2)) w.reverse
          = w.reverse.reverse :: tokenizeAux (joinWithSpace (w2 :: rest2)) [] := by
        simp [tokenizeAux, hsp, hrevne]
      rw [hjoin, tokenizeAux_append w _ [] hw, List.append_nil, h2, List.reverse_reverse]
      rw [show tokenizeAux (joinWithSpace (w2 :: rest2)) []
          = tokenizeChars (joinWithSpace (w2 :: rest2)) from rfl]
      rw [ih (fun u hu => h u (by simp [hu]))]

/-- The tokenizer round-trip at `String` level: re-tokenizing the
single-space join of a tokenization changes nothing. -/
lemma tokenize_joinWords_roundtrip (t : String) :
    tokenize (joinWords (tokenize t)) = tokenize t := by
  have hmap : ((tokenizeChars t.data).map String.mk).map String.data
      = tokenizeChars t.data := by
    rw [List.map_map]
    exact List.map_id'' (fun _ => rfl) _
  have hwf : ∀ w ∈ tokenizeChars t.data, w ≠ [] ∧ ∀ c ∈ w, jsSpace c = false :=
    tokenizeAux_wf t.data [] (by simp)
  show ((tokenizeChars (joinWords (tokenize t)).data).map String.mk) = tokenize t
  rw [show (joinWords (tokenize t)).data
      = joinWithSpace (((tokenizeChars t.data).map String.mk).map String.data) from rfl]
  rw [hmap]
  rw [tokenizeChars_joinWithSpace (tokenizeChars t.data) hwf]
  rfl

/-- Word-counting state machine equivalent to the tokenizer's output length:
`inWord` records whether the previous character was part of a word. -/
def countRuns : List Char → Bool → Nat
  | [], _ => 0
  | c :: cs, inWord =>
    if jsSpace c then countRuns cs false
    else (if inWord then 0 else 1) + countRuns cs true

lemma tokenizeAux_length (l : List Char) :
    ∀ acc, (tokenizeAux l acc).length
      = countRuns l (!acc.isEmpty) + (if acc.isEmpty then 0 else 1) := by
  induction l with
  | nil =>
    intro acc
    cases hacc : acc.isEmpty <;> simp [tokenizeAux, countRuns, hacc]
  | cons c cs ih =>
    intro acc
    by_cases hc : jsSpace c = true
    · cases hacc : acc.isEmpty <;>
        simp [tokenizeAux, countRuns, hc, hacc, ih []]
    · replace hc : jsSpace c = false := by simpa using hc
      cases hacc : acc.isEmpty <;>
        (simp [tokenizeAux, countRuns, hc, hacc, ih (c :: acc)]; try omega)

/-- Extending the scanned text can only add word runs. -/
lemma countRuns_append_le (xs ys : List Char) :
    ∀ b, countRuns xs b ≤ countRuns (xs ++ ys) b := by
  induction xs with
  | nil => intro b; simp [countRuns]
  | cons c cs ih =>
    intro b
    by_cases hc : jsSpace c = true
    · simpa [countRuns, hc] using ih false
    · have hc2 : jsSpace c = false := by simpa using hc
      simp only [List.cons_append, countRuns, hc2, Bool.false_eq_true, if_false]
      exact Nat.add_le_add_left (ih true) _

lemma wordsSpokenAt_eq_countRuns (text : String) (i : Nat) :
    wordsSpokenAt text i = countRuns (text.data.take i) false := by
  have := tokenizeAux_length (text.data.take i) []
  simpa [wordsSpokenAt, tokenizeChars] using this

/-- The `onboundary` word count is monotone in the reported offset. -/
lemma wordsSpokenAt_mono (text : String) {i j : Nat} (h : i ≤ j) :
    wordsSpokenAt text i ≤ wordsSpokenAt text j := by
  rw [wordsSpokenAt_eq_countRuns, wordsSpokenAt_eq_countRuns]
  have htake : text.data.take j = text.data.take i ++ (text.data.drop i).take (j - i) := by
    rw [← List.take_add]
    congr 1
    omega
  rw [htake]
  exact countRuns_append_le _ _ false

/-- The `onboundary` word count never exceeds the chunk's total word count. -/
lemma wordsSpokenAt_le_total (text : String) (i : Nat) :
    wordsSpokenAt text i ≤ (tokenizeChars text.data).length := by
  have h1 := wordsSpokenAt_eq_countRuns text i
  have h2 : (tokenizeChars text.data).length = countRuns text.data false := by
    have := tokenizeAux_length text.data []
    simpa [tokenizeChars] using this
  rw [h1, h2, ← List.take_append_drop i text.data]
  have := countRuns_append_le (text.data.take i) (text.data.drop i) false
  simpa using this

/-- An active speech session that runs out of chunks parks the cursor on the
last word; every branch of `speakNextChunk` keeps the cursor in range
provided the document is nonempty. -/
lemma speakNextChunk_posInv (s : ReaderState) (h : posInv s) (hne : s.words ≠ []) :
    posInv (speakNextChunk s) := by
  have hlen : 0 < s.words.length := List.length_pos.mpr hne
  unfold speakNextChunk
  split
  · split
    · constructor <;>
        simp only [posInv, pause_currentIndex, pause_words, updateProgress_currentIndex,
          updateProgress_words, updateDisplay_currentIndex, updateDisplay_words] <;>
        omega
    · exact h
  · cases hq : s.speechQueue with
    | nil => exact h
    | cons c rest => exact h

/-! ### The claims -/

/-- C1 (counterexample): the claim says `0 <= position <= len(Document)` in
every reachable state, every operation included.  But restoring the snapshot
`{text: "", currentIndex: 0, wpm: 300, readingMode: "visual"}` — exactly
what `saveToLocalStorage` writes after loading a whitespace-only book —
sets `currentIndex` to `min(0, 0 - 1) = -1`, below the claimed range. -/
theorem C1_counterexample :
    (loadFromLocalStorage initialState
      (some ⟨"", some 0, some 300, some "visual"⟩)).currentIndex = -1 ∧
    ¬ (0 : Int) ≤ -1 := by decide

/-- C1 (amended): the range invariant `0 <= position <= len` is established
by document load and preserved by jump unconditionally, by the visual tick
from every in-range state (playback active or not), by the speech `onstart`
and `onboundary` callbacks for any chunk lying inside the document, by the
speech `onend` callback for such a chunk when the document is nonempty, and
by restore — from the constructor's non-playing state, restore's only call
site — provided the restored document is nonempty and the stored index
nonnegative.  Restore of an empty-document snapshot (or of a negative stored
index) escapes the range, as the counterexample shows. -/
theorem C1_amended (s : ReaderState) (text : String) (a : Int) (bd : BookData)
    (ch : SpeechChunk) (l : Nat) (e : BoundaryEvent) :
    posInv (processBookText s text) ∧
    posInv (jumpWords s a) ∧
    (posInv s → posInv (displayNextWord s)) ∧
    (s.isPlaying = false → 0 ≤ jsOrZero bd.currentIndex → tokenize bd.text ≠ [] →
      posInv (loadFromLocalStorage s (some bd))) ∧
    (0 ≤ ch.startIndex → ch.startIndex + (ch.wordCount : Int) ≤ (s.words.length : Int) →
      posInv (chunkOnStart s ch)) ∧
    (0 ≤ ch.startIndex → ch.startIndex + (ch.wordCount : Int) ≤ (s.words.length : Int) →
      s.words ≠ [] → posInv (chunkOnEnd s ch)) ∧
    (posInv s → 0 ≤ ch.startIndex →
      ch.startIndex + (ch.wordCount : Int) ≤ (s.words.length : Int) →
      (tokenizeChars ch.text.data).length = ch.wordCount →
      posInv (chunkOnBoundary s ch l e).1) := by
  refine ⟨?_, ?_, ?_, ?_, ?_, ?_, ?_⟩
  · constructor <;>
      simp only [posInv, processBookText, updateProgress_currentIndex,
        updateProgress_words, updateDisplay_currentIndex, updateDisplay_words] <;>
      simp
  · constructor <;>
      simp only [posInv, jumpWords, updateProgress_currentIndex,
        updateProgress_words, updateDisplay_currentIndex, updateDisplay_words]
    · exact le_max_left _ _
    · refine max_le (by positivity) (le_trans (min_le_left _ _) (by omega))
  · intro hpos
    obtain ⟨h0, h1⟩ := hpos
    unfold displayNextWord
    split
    · exact ⟨le_refl _, by positivity⟩
    · next hlt =>
      constructor <;>
        simp only [posInv, updateProgress_currentIndex, updateProgress_words,
          updateDisplay_currentIndex, updateDisplay_words] <;>
        omega
  · intro hplay hbdPos hbdNe
    have hw := restore_words s bd
    have hc := restore_currentIndex s bd hplay
    have hlen : 0 < (tokenize bd.text).length := List.length_pos.mpr hbdNe
    constructor
    · rw [hc]
      refine le_min hbdPos (by omega)
    · rw [hc, hw]
      refine le_trans (min_le_right _ _) (by omega)
  · intro hch0 hchLen
    constructor <;>
      simp only [posInv, chunkOnStart, updateProgress_currentIndex,
        updateProgress_words, updateDisplay_currentIndex, updateDisplay_words] <;>
      omega
  · intro hch0 hchLen hne
    refine speakNextChunk_posInv _ ⟨?_, ?_⟩ ?_ <;>
      simp only [chunkOnEnd, updateProgress_currentIndex, updateProgress_words,
        updateDisplay_currentIndex, updateDisplay_words] <;>
      first
        | omega
        | exact hne
  · intro hpos hch0 hchLen hText
    obtain ⟨h0, h1⟩ := hpos
    simp only [chunkOnBoundary]
    split
    · split
      · have hle : wordsSpokenAt ch.text e.charIndex ≤ ch.wordCount := by
          rw [← hText]; exact wordsSpokenAt_le_total ch.text e.charIndex
        constructor <;>
          simp only [posInv, updateProgress_currentIndex, updateProgress_words,
            updateDisplay_currentIndex, updateDisplay_words] <;>
          omega
      · exact ⟨h0, h1⟩
    · exact ⟨h0, h1⟩

/-- C1 (witness): the amended invariant theorem applied at a concrete
two-word document, jump amount, snapshot, chunk, and boundary event,
discharging each conjunct's hypotheses there. -/
theorem C1_amended_witness :
    (posInv { initialState with words := ["a", "b"] } ∧
      ({ initialState with words := ["a", "b"] } : ReaderState).isPlaying = false ∧
      (0 : Int) ≤ jsOrZero (some 1) ∧
      tokenize "p q" ≠ [] ∧
      ({ initialState with words := ["a", "b"] } : ReaderState).words ≠ []) ∧
    posInv (jumpWords { initialState with words := ["a", "b"] } 5) ∧
    posInv (displayNextWord { initialState with words := ["a", "b"] }) ∧
    posInv (loadFromLocalStorage { initialState with words := ["a", "b"] }
      (some ⟨"p q", some 1, none, none⟩)) ∧
    posInv (chunkOnEnd { initialState with words := ["a", "b"] } ⟨"a b", 0, 2⟩) ∧
    posInv (chunkOnBoundary { initialState with words := ["a", "b"] }
      ⟨"a b", 0, 2⟩ 0 ⟨"word", 1⟩).1 := by
  have h := C1_amended { initialState with words := ["a", "b"] } "x y" 5
    ⟨"p q", some 1, none, none⟩ ⟨"a b", 0, 2⟩ 0 ⟨"word", 1⟩
  exact ⟨⟨by decide, by decide, by decide, by decide, by decide⟩,
    h.2.1,
    h.2.2.1 (by decide),
    h.2.2.2.1 (by decide) (by decide) (by decide),
    h.2.2.2.2.2.1 (by decide) (by decide) (by decide),
    h.2.2.2.2.2.2 (by decide) (by decide) (by decide) (by decide)⟩

/-- C2 (counterexample): the claim says a snapshot with negative
`currentIndex` restores to position 0; the code's `bookData.currentIndex || 0`
keeps any nonzero number, so restoring `{text: "a b c", currentIndex: -5}`
lands on `min(-5, 2) = -5`, not 0. -/
theorem C2_counterexample :
    (loadFromLocalStorage initialState
      (some ⟨"a b c", some (-5), none, none⟩)).currentIndex = -5 ∧
    (-5 : Int) ≠ 0 := by decide

/-- C2 (amended): restore sets position to
`min(stored currentIndex defaulted to 0 when absent or 0, len(document)-1)`:
an oversized index clamps to `len-1`, an absent index gives `min(0, len-1)`
(which is 0 for a nonempty document but -1 for an empty one), and a negative
stored index is kept as-is rather than clamped to 0. -/
theorem C2_amended (s : ReaderState) (bd : BookData) (h : s.isPlaying = false) :
    (loadFromLocalStorage s (some bd)).currentIndex
      = min (jsOrZero bd.currentIndex) (((tokenize bd.text).length : Int) - 1) ∧
    (bd.currentIndex = none →
      (loadFromLocalStorage s (some bd)).currentIndex
        = min 0 (((tokenize bd.text).length : Int) - 1)) := by
  have hc := restore_currentIndex s bd h
  refine ⟨hc, fun hnone => ?_⟩
  rw [hc, hnone]
  rfl

/-- C2 (witness): an oversized stored index (99) against a three-word
document restores to `len - 1 = 2`. -/
theorem C2_witness :
    initialState.isPlaying = false ∧
    (loadFromLocalStorage initialState
      (some ⟨"a b c", some 99, none, none⟩)).currentIndex = 2 := by
  refine ⟨rfl, ?_⟩
  have h := (C2_amended initialState ⟨"a b c", some 99, none, none⟩ rfl).1
  rw [h]
  decide

/-- C3: the claim (and the spec's cancellation requirement) says a cancelled
narration's in-flight callback must not mutate state.  In the code only the
`speakNextChunk` chaining checks `isSpeechActive`; the `onend` and
`onboundary` handlers themselves mutate `currentIndex` unconditionally.
Concretely: pause during the chunk `{text: "b c", startIndex: 1, wordCount: 2}`
at position 1, then let the cancelled utterance's callbacks fire — `onend`
moves the cursor to 3 and `onboundary` (offset 2) moves it to 2. -/
theorem C3_cancelled_callback_mutates :
    ((pause { initialState with
        words := ["a", "b", "c", "d"], currentIndex := 1,
        readingMode := "speech", isPlaying := true,
        isSpeechActive := true }).isSpeechActive = false) ∧
    (chunkOnEnd
      (pause { initialState with
        words := ["a", "b", "c", "d"], currentIndex := 1,
        readingMode := "speech", isPlaying := true,
        isSpeechActive := true }) ⟨"b c", 1, 2⟩).currentIndex = 3 ∧
    (chunkOnBoundary
      (pause { initialState with
        words := ["a", "b", "c", "d"], currentIndex := 1,
        readingMode := "speech", isPlaying := true,
        isSpeechActive := true }) ⟨"b c", 1, 2⟩ 0 ⟨"word", 2⟩).1.currentIndex = 2 ∧
    (pause { initialState with
        words := ["a", "b", "c", "d"], currentIndex := 1,
        readingMode := "speech", isPlaying := true,
        isSpeechActive := true }).currentIndex = 1 := by decide

set_option maxRecDepth 40000 in
/-- C4: playing speech from position 0 of a 450-word document builds the
chunk queue with word counts `[200, 200, 50]` and starting indices
`[0, 200, 400]`, and after the three chunks' `onstart`/`onend` callbacks run
sequentially the cursor is parked at 449. -/
theorem C4_speech_chunking :
    ((buildChunks (sliceFrom (List.replicate 450 "w") 0) 0).map SpeechChunk.wordCount
      = [200, 200, 50]) ∧
    ((buildChunks (sliceFrom (List.replicate 450 "w") 0) 0).map SpeechChunk.startIndex
      = [0, 200, 400]) ∧
    (let cs := buildChunks (sliceFrom (List.replicate 450 "w") 0) 0
     let d : SpeechChunk := ⟨"", 0, 0⟩
     let s1 := play { initialState with
       words := List.replicate 450 "w"
       readingMode := "speech" }
     let s2 := chunkOnEnd (chunkOnStart s1 (cs.getD 0 d)) (cs.getD 0 d)
     let s3 := chunkOnEnd (chunkOnStart s2 (cs.getD 1 d)) (cs.getD 1 d)
     let s4 := chunkOnEnd (chunkOnStart s3 (cs.getD 2 d)) (cs.getD 2 d)
     s4.currentIndex = 449 ∧ s1.speechQueue.length = 2 ∧
       s1.currentUtterance = some (cs.getD 0 d)) := by decide

/-- C5: switching reading mode always leaves playback stopped — if the
reader was playing, `setReadingMode` pauses first, and if it was not, it
stays stopped — and the new mode is installed. -/
theorem C5_setMode_stops (s : ReaderState) (mode : String) :
    (setReadingMode s mode).isPlaying = false ∧
    (setReadingMode s mode).readingMode = mode := by
  constructor
  · show (setReadingMode s mode).isPlaying = false
    simp only [setReadingMode]
    split
    · rfl
    · next h => simpa using h
  · show (setReadingMode s mode).readingMode = mode
    simp [setReadingMode]

/-- C7 (counterexample): the claim says every speed-setting operation lands
in `[100, 1000]`, but `updateSpeed` stores its argument unclamped (the slider
value 50 gives `wpm = 50`) and restore installs the stored `wpm` unclamped
(`5000` stays `5000`). -/
theorem C7_counterexample :
    (updateSpeed initialState 50).wpm = 50 ∧
    (loadFromLocalStorage initialState
      (some ⟨"a b", some 0, some 5000, none⟩)).wpm = 5000 ∧
    ¬ (100 : Int) ≤ 50 ∧ ¬ (5000 : Int) ≤ 1000 := by decide

/-- C7 (amended): only the step adjustment clamps — `adjustSpeed` always
lands in `[100, 1000]` — while `updateSpeed` stores exactly the value it is
given, so the range invariant holds only for speeds set through
`adjustSpeed`. -/
theorem C7_amended (s : ReaderState) (change w : Int) :
    100 ≤ (adjustSpeed s change).wpm ∧ (adjustSpeed s change).wpm ≤ 1000 ∧
    (updateSpeed s w).wpm = w := by
  have h : (adjustSpeed s change).wpm = max 100 (min 1000 (s.wpm + change)) := by
    simp [adjustSpeed]
  refine ⟨?_, ?_, by simp⟩
  · rw [h]; exact le_max_left _ _
  · rw [h]; exact max_le (by norm_num) (min_le_left _ _)

/-- C10: restoring a snapshot from a non-playing state (the constructor is
restore's only call site) leaves every playback field exactly as it was:
still not playing, no timer scheduled, speech inactive, empty chunk queue,
no utterance in flight. -/
theorem C10_restore_frame (s : ReaderState) (bd : Option BookData)
    (h : s.isPlaying = false) :
    (loadFromLocalStorage s bd).isPlaying = s.isPlaying ∧
    (loadFromLocalStorage s bd).intervalId = s.intervalId ∧
    (loadFromLocalStorage s bd).isSpeechActive = s.isSpeechActive ∧
    (loadFromLocalStorage s bd).speechQueue = s.speechQueue ∧
    (loadFromLocalStorage s bd).currentUtterance = s.currentUtterance := by
  cases bd with
  | none => exact ⟨rfl, rfl, rfl, rfl, rfl⟩
  | some bd => exact restore_playback s bd h

/-- C10 (witness): restoring a full snapshot over the freshly constructed
state leaves all playback fields at their initial (stopped) values. -/
theorem C10_witness :
    initialState.isPlaying = false ∧
    ((loadFromLocalStorage initialState
        (some ⟨"a b", some 1, some 400, some "speech"⟩)).isPlaying
      = initialState.isPlaying ∧
    (loadFromLocalStorage initialState
        (some ⟨"a b", some 1, some 400, some "speech"⟩)).intervalId
      = initialState.intervalId ∧
    (loadFromLocalStorage initialState
        (some ⟨"a b", some 1, some 400, some "speech"⟩)).isSpeechActive
      = initialState.isSpeechActive ∧
    (loadFromLocalStorage initialState
        (some ⟨"a b", some 1, some 400, some "speech"⟩)).speechQueue
      = initialState.speechQueue ∧
    (loadFromLocalStorage initialState
        (some ⟨"a b", some 1, some 400, some "speech"⟩)).currentUtterance
      = initialState.currentUtterance) :=
  ⟨rfl, C10_restore_frame initialState (some ⟨"a b", some 1, some 400, some "speech"⟩) rfl⟩

/-- A `word` boundary event whose recomputed count differs from
`lastWordIndex` moves the cursor and records the new count. -/
lemma chunkOnBoundary_of_ne (s : ReaderState) (chunk : SpeechChunk) (l : Nat)
    (e : BoundaryEvent) (hname : e.name = "word")
    (hne : wordsSpokenAt chunk.text e.charIndex ≠ l) :
    chunkOnBoundary s chunk l e
      = (updateProgress (updateDisplay
          { s with currentIndex :=
              chunk.startIndex + (wordsSpokenAt chunk.text e.charIndex : Int) }),
         wordsSpokenAt chunk.text e.charIndex) := by
  simp [chunkOnBoundary, hname, hne]

/-- A `word` boundary event whose recomputed count equals `lastWordIndex`
is a no-op. -/
lemma chunkOnBoundary_of_eq (s : ReaderState) (chunk : SpeechChunk) (l : Nat)
    (e : BoundaryEvent) (hname : e.name = "word")
    (heq : wordsSpokenAt chunk.text e.charIndex = l) :
    chunkOnBoundary s chunk l e = (s, l) := by
  simp [chunkOnBoundary, hname, heq]

/-- C6 (counterexample): the claim quantifies over every sequence of
boundary events and asserts the position never decreases; but the code
updates on `wordsSpoken !== lastWordIndex`, not `>`, so an event reporting a
smaller character offset moves the cursor backwards: offsets `[6, 0]` in the
chunk `"aa bb cc"` take the position from 2 back to 0. -/
theorem C6_counterexample :
    (runChunkBoundaries ⟨"aa bb cc", 0, 3⟩
      ({ initialState with words := ["aa", "bb", "cc"] }, 0)
      [⟨"word", 6⟩]).1.currentIndex = 2 ∧
    (runChunkBoundaries ⟨"aa bb cc", 0, 3⟩
      ({ initialState with words := ["aa", "bb", "cc"] }, 0)
      [⟨"word", 6⟩, ⟨"word", 0⟩]).1.currentIndex = 0 := by decide

/-- C6 (amended): for every sequence of `word` boundary events whose
character offsets are nondecreasing (which is how a speech engine reports
progress), the position updates within a chunk are monotone forward-only:
the tracked count always equals the word count preceding the last reported
offset, the cursor sits at `chunk.start + count`, the position never
decreases, and if the count never increases (duplicate offsets within the
same word) the state is left completely unchanged. -/
theorem C6_amended (chunk : SpeechChunk) (events : List BoundaryEvent) :
    ∀ (s : ReaderState) (l o : Nat),
      (∀ e ∈ events, e.name = "word") →
      List.Chain (fun a b => a ≤ b) o (events.map BoundaryEvent.charIndex) →
      l = wordsSpokenAt chunk.text o →
      s.currentIndex = chunk.startIndex + (l : Int) →
      (runChunkBoundaries chunk (s, l) events).2
          = wordsSpokenAt chunk.text (events.foldl (fun _ e => e.charIndex) o) ∧
      (runChunkBoundaries chunk (s, l) events).1.currentIndex
          = chunk.startIndex + ((runChunkBoundaries chunk (s, l) events).2 : Int) ∧
      s.currentIndex ≤ (runChunkBoundaries chunk (s, l) events).1.currentIndex ∧
      ((runChunkBoundaries chunk (s, l) events).2 = l →
        (runChunkBoundaries chunk (s, l) events).1 = s) := by
  induction events with
  | nil =>
    intro s l o _ _ hl hci
    exact ⟨hl, hci, le_refl _, fun _ => rfl⟩
  | cons e es ih =>
    intro s l o hw hchain hl hci
    have hname : e.name = "word" := hw e (by simp)
    have hwtail : ∀ x ∈ es, x.name = "word" := fun x hx => hw x (by simp [hx])
    have hchain2 : o ≤ e.charIndex ∧
        List.Chain (fun a b => a ≤ b) e.charIndex (es.map BoundaryEvent.charIndex) := by
      cases hchain with
      | cons h1 h2 => exact ⟨h1, h2⟩
    have hlw : l ≤ wordsSpokenAt chunk.text e.charIndex := by
      rw [hl]; exact wordsSpokenAt_mono chunk.text hchain2.1
    have hrunstep : runChunkBoundaries chunk (s, l) (e :: es)
        = runChunkBoundaries chunk (chunkOnBoundary s chunk l e) es := rfl
    have hfold : (e :: es).foldl (fun _ x => x.charIndex) o
        = es.foldl (fun _ x => x.charIndex) e.charIndex := rfl
    by_cases hwl : wordsSpokenAt chunk.text e.charIndex = l
    · have hstep : chunkOnBoundary s chunk l e = (s, l) :=
        chunkOnBoundary_of_eq s chunk l e hname hwl
      have H := ih s l e.charIndex hwtail hchain2.2 hwl.symm hci
      rw [hrunstep, hstep, hfold]
      exact H
    · have hstep := chunkOnBoundary_of_ne s chunk l e hname hwl
      have hs2 : (updateProgress (updateDisplay
          { s with currentIndex :=
              chunk.startIndex + (wordsSpokenAt chunk.text e.charIndex : Int) })).currentIndex
          = chunk.startIndex + (wordsSpokenAt chunk.text e.charIndex : Int) := by
        simp
      have H := ih (updateProgress (updateDisplay
          { s with currentIndex :=
              chunk.startIndex + (wordsSpokenAt chunk.text e.charIndex : Int) }))
        (wordsSpokenAt chunk.text e.charIndex) e.charIndex hwtail hchain2.2 rfl hs2
      rw [hrunstep, hstep, hfold]
      refine ⟨H.1, H.2.1, ?_, ?_⟩
      · have hcast : (l : Int) ≤ (wordsSpokenAt chunk.text e.charIndex : Int) := by
          exact_mod_cast hlw
        have := H.2.2.1
        rw [hs2] at this
        omega
      · intro hfin
        exfalso
        have hbig := H.2.2.1
        rw [H.2.1, hs2] at hbig
        have hle2 : wordsSpokenAt chunk.text e.charIndex
            ≤ (runChunkBoundaries chunk
                (updateProgress (updateDisplay
                  { s with currentIndex :=
                      chunk.startIndex + (wordsSpokenAt chunk.text e.charIndex : Int) }),
                 wordsSpokenAt chunk.text e.charIndex) es).2 := by
          exact_mod_cast (by omega :
            (wordsSpokenAt chunk.text e.charIndex : Int)
              ≤ ((runChunkBoundaries chunk
                (updateProgress (updateDisplay
                  { s with currentIndex :=
                      chunk.startIndex + (wordsSpokenAt chunk.text e.charIndex : Int) }),
                 wordsSpokenAt chunk.text e.charIndex) es).2 : Int))
        rw [hfin] at hle2
        exact hwl (le_antisymm hle2 hlw)

/-- C6 (witness): the amended theorem applied to the chunk `"aa bb"` with the
nondecreasing word-event offsets `[1, 4]`: the tracked count ends at 2 and
the cursor at `0 + 2`. -/
theorem C6_amended_witness :
    ((∀ e ∈ ([⟨"word", 1⟩, ⟨"word", 4⟩] : List BoundaryEvent), e.name = "word") ∧
      List.Chain (fun a b => a ≤ b) 0
        (([⟨"word", 1⟩, ⟨"word", 4⟩] : List BoundaryEvent).map BoundaryEvent.charIndex)) ∧
    (runChunkBoundaries ⟨"aa bb", 0, 2⟩
      ({ initialState with words := ["aa", "bb"] }, 0)
      [⟨"word", 1⟩, ⟨"word", 4⟩]).2 = 2 ∧
    (runChunkBoundaries ⟨"aa bb", 0, 2⟩
      ({ initialState with words := ["aa", "bb"] }, 0)
      [⟨"word", 1⟩, ⟨"word", 4⟩]).1.currentIndex = 2 := by
  have hch : List.Chain (fun a b => a ≤ b) 0
      (([⟨"word", 1⟩, ⟨"word", 4⟩] : List BoundaryEvent).map BoundaryEvent.charIndex) :=
    List.Chain.cons (by norm_num) (List.Chain.cons (by norm_num) List.Chain.nil)
  have H := C6_amended ⟨"aa bb", 0, 2⟩ [⟨"word", 1⟩, ⟨"word", 4⟩]
    { initialState with words := ["aa", "bb"] } 0 0
    (by decide) hch (by decide) (by decide)
  refine ⟨⟨by decide, hch⟩, ?_, ?_⟩
  · rw [H.1]; decide
  · rw [H.2.1, H.1]; decide

/-- C8: the tokenizer is idempotent on tokens re-joined with single spaces,
so restoring the snapshot `persist()` writes (document joined by `' '`)
re-tokenizes to exactly the persisted word sequence. -/
theorem C8_roundtrip (s0 s1 : ReaderState) (text : String) :
    tokenize (joinWords (tokenize text)) = tokenize text ∧
    (loadFromLocalStorage s1
        (some (snapshotOf (processBookText s0 text)))).words
      = (processBookText s0 text).words := by
  have hrt := tokenize_joinWords_roundtrip text
  have hw0 : (processBookText s0 text).words = tokenize text := by
    simp [processBookText]
  have hw1 := restore_words s1 (snapshotOf (processBookText s0 text))
  refine ⟨hrt, ?_⟩
  rw [hw1]
  show tokenize (joinWords (processBookText s0 text).words)
      = (processBookText s0 text).words
  rw [hw0]
  exact hrt

/-- `updateDisplay` writes the current word whenever the cursor is in
range. -/
lemma updateDisplay_display_of_lt (s : ReaderState) (h0 : 0 < s.words.length)
    (h1 : s.currentIndex < (s.words.length : Int)) :
    (updateDisplay s).display = wordAt s.words s.currentIndex := by
  unfold updateDisplay
  rw [if_pos ⟨h0, h1⟩]

/-- C9 (counterexample): the claim says the render shows a blank when the
position is out of range and that every mutating operation (mode changes
included) triggers the word/progress render.  Neither holds: with the
one-word document `["a"]` and cursor 1 (out of range) `updateDisplay` leaves
the previously shown word `"a"` on screen, and `setReadingMode` changes the
mode without touching the displayed word or the progress text at all. -/
theorem C9_counterexample :
    (updateDisplay { initialState with
        words := ["a"], currentIndex := 1, display := "a" }).display = "a" ∧
    "a" ≠ "" ∧
    (setReadingMode { initialState with
        words := ["a"], display := "a", progress := "1 / 1" } "speech").readingMode
      = "speech" ∧
    (setReadingMode { initialState with
        words := ["a"], display := "a", progress := "1 / 1" } "speech").display = "a" ∧
    (setReadingMode { initialState with
        words := ["a"], display := "a", progress := "1 / 1" } "speech").progress
      = "1 / 1" := by decide

/-- C9 (amended): operations that change position or document do render —
`jumpWords` shows the word at the new clamped position (always in range for a
nonempty document) and `processBookText` the word at position 0 — and both
always set the 1-based `"current+1 / total"` progress string; but an
out-of-range cursor leaves the previous display text unchanged rather than
blanking it, and mode switches (as well as speed updates from a stopped
state) trigger no word/progress render at all. -/
theorem C9_amended (s : ReaderState) (a : Int) (text mode : String) (w : Int) :
    (0 < s.words.length →
      (jumpWords s a).display
        = wordAt (jumpWords s a).words (jumpWords s a).currentIndex) ∧
    (jumpWords s a).progress
      = progressString (jumpWords s a).currentIndex (jumpWords s a).words.length ∧
    (0 < (tokenize text).length →
      (processBookText s text).display = wordAt (tokenize text) 0) ∧
    (processBookText s text).progress
      = progressString 0 (tokenize text).length ∧
    (¬ (0 < s.words.length ∧ s.currentIndex < (s.words.length : Int)) →
      (updateDisplay s).display = s.display) ∧
    (setReadingMode s mode).display = s.display ∧
    (setReadingMode s mode).progress = s.progress ∧
    (s.isPlaying = false →
      (updateSpeed s w).display = s.display ∧
      (updateSpeed s w).progress = s.progress) := by
  refine ⟨?_, ?_, ?_, ?_, ?_, ?_, ?_, ?_⟩
  · intro hlen
    have hlt : max 0 (min ((s.words.length : Int) - 1) (s.currentIndex + a))
        < (s.words.length : Int) := by
      refine lt_of_le_of_lt (max_le ?_ (min_le_left _ _)) ?_ <;> omega
    simp only [jumpWords, updateProgress_display, updateProgress_words,
      updateProgress_currentIndex, updateDisplay_words, updateDisplay_currentIndex]
    exact updateDisplay_display_of_lt
      { s with currentIndex := max 0 (min ((s.words.length : Int) - 1) (s.currentIndex + a)) }
      hlen hlt
  · simp only [jumpWords, updateProgress_progress, updateProgress_words,
      updateProgress_currentIndex, updateDisplay_words, updateDisplay_currentIndex]
  · intro hlen
    simp only [processBookText, updateProgress_display]
    refine updateDisplay_display_of_lt
      { s with words := tokenize text, currentIndex := 0 }
      hlen ?_
    show (0 : Int) < ((tokenize text).length : Int)
    exact_mod_cast hlen
  · simp only [processBookText, updateProgress_progress, updateProgress_words,
      updateProgress_currentIndex, updateDisplay_words, updateDisplay_currentIndex]
  · intro hout
    unfold updateDisplay
    rw [if_neg hout]
  · simp only [setReadingMode]
    split <;> simp
  · simp only [setReadingMode]
    split <;> simp
  · intro hstop
    rw [updateSpeed_not_playing s w hstop]
    exact ⟨rfl, rfl⟩

/-- C9 (witness): jumping forward in the two-word document `["a", "b"]`
renders the word at the clamped position. -/
theorem C9_amended_witness :
    (0 : Nat) < ({ initialState with words := ["a", "b"] } : ReaderState).words.length ∧
    (jumpWords { initialState with words := ["a", "b"] } 1).display
      = wordAt (jumpWords { initialState with words := ["a", "b"] } 1).words
          (jumpWords { initialState with words := ["a", "b"] } 1).currentIndex := by
  have H := C9_amended { initialState with words := ["a", "b"] } 1 "x" "speech" 500
  exact ⟨by decide, H.1 (by decide)⟩

end BookReader
